import Mathlib

/-!
Verification of the VeriFact pipeline-orchestration core.

The repository snapshot holds the documentation of the pipeline module
(`src/models/README.md`, the agent-architecture README, the utils README)
but not the Python bodies of `src/pipeline`, `src/agents` or
`src/utils/async`; every operational definition below is therefore
modelled from the specification (and the READMEs' declared interfaces),
as its doc comment records.
-/

/-- Stance of a piece of evidence toward a claim (spec section 3). -/
inductive Stance where
  | supporting
  | contradicting
  | contextual
deriving DecidableEq, Repr

/-- A factual claim produced by claim detection (spec section 3). -/
structure Claim where
  text : String
  context : Option String
  domain : Option String
  check_worthiness : ℚ
deriving DecidableEq, Repr

/-- A retrieved piece of evidence for one claim (spec section 3). -/
structure Evidence where
  text : String
  source : String
  relevance : ℚ
  stance : Stance
deriving DecidableEq, Repr

/-- The terminal per-claim judgment (spec section 3). -/
structure Verdict where
  claim : String
  verdict : String
  confidence : ℚ
  explanation : String
  sources : List String
deriving DecidableEq, Repr

/-- The pipeline configuration value object.  Field names follow the
`PipelineConfig` options table of the pipeline README; `parallelism` is the
concurrency bound of spec sections 3 and 4.3.  Numeric fields use `ℚ`/`ℤ` so
that out-of-range values are expressible. -/
structure PipelineConfig where
  min_checkworthiness : ℚ
  max_claims : Option Nat
  evidence_per_claim : Int
  timeout_seconds : ℚ
  retry_attempts : Int
  parallelism : Int
  raise_exceptions : Bool
deriving DecidableEq, Repr

/-- Modelled from the spec: section 4.4 configuration validation (the Python
`PipelineConfig` constructor is absent from the snapshot).  Construction
fails fast exactly when `min_checkworthiness` is outside `[0,1]`,
`parallelism < 1`, `evidence_per_claim < 0`, `timeout_seconds ≤ 0`, or
`retry_attempts < 1`. -/
def PipelineConfig.validate (cfg : PipelineConfig) : Except String PipelineConfig :=
  if cfg.min_checkworthiness < 0 then Except.error "min_checkworthiness below 0"
  else if 1 < cfg.min_checkworthiness then Except.error "min_checkworthiness above 1"
  else if cfg.parallelism < 1 then Except.error "parallelism below 1"
  else if cfg.evidence_per_claim < 0 then Except.error "evidence_per_claim negative"
  else if cfg.timeout_seconds ≤ 0 then Except.error "timeout_seconds not positive"
  else if cfg.retry_attempts < 1 then Except.error "retry_attempts below 1"
  else Except.ok cfg

/-- Modelled from the spec: the documented defaults of the pipeline README's
`PipelineConfig` table (`min_checkworthiness` 0.5, `max_claims` none,
`evidence_per_claim` 5, `timeout_seconds` 120.0, `retry_attempts` 2,
`raise_exceptions` false).  The README does not document a default for
`parallelism`; it is modelled as 1, the least value accepted by
validation. -/
def defaultPipelineConfig : PipelineConfig :=
  ⟨1/2, none, 5, 120, 2, 1, false⟩

/-- Modelled from the spec: claim filtering after detection (spec section
4.3) — keep claims with `check_worthiness ≥ min_checkworthiness`, preserving
detector order, then truncate to the first `max_claims` when set. -/
def filterClaims (cfg : PipelineConfig) (claims : List Claim) : List Claim :=
  let kept := claims.filter (fun c => cfg.min_checkworthiness ≤ c.check_worthiness)
  match cfg.max_claims with
  | some m => kept.take m
  | none => kept

/-- The lifecycle events published on the bus (spec section 3, and the
pipeline README's events table). `WARNING` carries the failed attempt
number (spec section 4.1); `ERROR` carries the claim it concerns, when
claim-scoped. -/
inductive PipelineEvent where
  | STARTED
  | STAGE_STARTED (stage : String)
  | STAGE_COMPLETED (stage : String)
  | CLAIM_DETECTED (c : Claim)
  | EVIDENCE_GATHERED (c : Claim)
  | VERDICT_GENERATED (c : Claim) (v : Verdict)
  | COMPLETED
  | WARNING (attempt : Nat)
  | ERROR (c : Option Claim) (detail : String)
deriving DecidableEq, Repr

/-- The tag of an event, for per-tag handler registration. -/
inductive EventTag where
  | STARTED
  | STAGE_STARTED
  | STAGE_COMPLETED
  | CLAIM_DETECTED
  | EVIDENCE_GATHERED
  | VERDICT_GENERATED
  | COMPLETED
  | WARNING
  | ERROR
deriving DecidableEq, Repr

/-- Tag of a `PipelineEvent`. -/
def PipelineEvent.tag : PipelineEvent → EventTag
  | .STARTED => .STARTED
  | .STAGE_STARTED _ => .STAGE_STARTED
  | .STAGE_COMPLETED _ => .STAGE_COMPLETED
  | .CLAIM_DETECTED _ => .CLAIM_DETECTED
  | .EVIDENCE_GATHERED _ => .EVIDENCE_GATHERED
  | .VERDICT_GENERATED _ _ => .VERDICT_GENERATED
  | .COMPLETED => .COMPLETED
  | .WARNING _ => .WARNING
  | .ERROR _ _ => .ERROR

/-- The states of the per-run state machine (spec section 4.3). -/
inductive RunState where
  | CREATED
  | DETECTING
  | PROCESSING_CLAIMS
  | AGGREGATING
  | COMPLETED
  | FAILED
deriving DecidableEq, Repr

/-- Modelled from the spec: the post-retry outcome of the two per-claim
stage calls (the Python `EvidenceHunter`/`VerdictWriter` callers in
`src/pipeline` are absent from the snapshot).  `gather` and `write` give the
result of each step after its Retry Wrapper: either a success or the final
error once retries are exhausted. -/
structure StageBehavior where
  gather : Claim → Except String (List Evidence)
  write : Claim → List Evidence → Except String Verdict

/-- Modelled from the spec: the two-step per-claim sub-pipeline
`gather_evidence → write_verdict` of spec section 4.3, with its events.
Returns the events it publishes and the verdict, `none` when a sub-step
exhausted its retries. -/
def processClaim (b : StageBehavior) (c : Claim) : List PipelineEvent × Option Verdict :=
  match b.gather c with
  | .error e => ([.ERROR (some c) e], none)
  | .ok ev =>
    match b.write c ev with
    | .error e => ([.EVIDENCE_GATHERED c, .ERROR (some c) e], none)
    | .ok v => ([.EVIDENCE_GATHERED c, .VERDICT_GENERATED c v], some v)

/-- Aggregate outcome of processing the filtered claims. -/
structure ProcOut where
  events : List PipelineEvent
  verdicts : List Verdict
  failed : Option Claim
  calls : List Claim
deriving Repr

/-- Modelled from the spec: processing of the surviving claims (spec section
4.3 failure policy).  With `raiseExc = false` a failed claim publishes its
ERROR event and is skipped; with `raiseExc = true` the first failure stops
further claim processing (`failed` records the failing claim).  `calls`
lists the claims that received a stage call. -/
def processAll (b : StageBehavior) (raiseExc : Bool) : List Claim → ProcOut
  | [] => ⟨[], [], none, []⟩
  | c :: rest =>
    let p := processClaim b c
    match p.2 with
    | some v =>
      let r := processAll b raiseExc rest
      ⟨p.1 ++ r.events, v :: r.verdicts, r.failed, c :: r.calls⟩
    | none =>
      if raiseExc then ⟨p.1, [], some c, [c]⟩
      else
        let r := processAll b raiseExc rest
        ⟨p.1 ++ r.events, r.verdicts, r.failed, c :: r.calls⟩

/-- The observable outcome of one pipeline run. -/
structure RunResult where
  verdicts : List Verdict
  events : List PipelineEvent
  trajectory : List RunState
  raised : Bool
  calls : List Claim
deriving Repr

/-- Modelled from the spec: one end-to-end run of the Pipeline Engine (spec
section 4.3; the Python `FactcheckPipeline.process_text` body is absent from
the snapshot).  Detection output is `detected`; claims are filtered and
truncated, an empty list completes directly, otherwise the surviving claims
are processed under the configured failure policy. -/
def run (b : StageBehavior) (cfg : PipelineConfig) (detected : List Claim) : RunResult :=
  let filtered := filterClaims cfg detected
  if filtered.isEmpty then
    ⟨[], [.STARTED, .COMPLETED], [.CREATED, .DETECTING, .COMPLETED], false, []⟩
  else
    let r := processAll b cfg.raise_exceptions filtered
    match r.failed with
    | some _ =>
      ⟨[], .STARTED :: r.events, [.CREATED, .DETECTING, .PROCESSING_CLAIMS, .FAILED], true, r.calls⟩
    | none =>
      ⟨r.verdicts, .STARTED :: r.events ++ [.COMPLETED],
        [.CREATED, .DETECTING, .PROCESSING_CLAIMS, .AGGREGATING, .COMPLETED], false, r.calls⟩

/-- Modelled from the spec: the caller-facing entry point.  Validation
errors are raised before any stage call and never enter the state machine
(spec section 7): an invalid configuration yields `Except.error` with no
`RunResult` at all. -/
def runPipeline (b : StageBehavior) (cfg : PipelineConfig) (detected : List Claim) :
    Except String RunResult :=
  match cfg.validate with
  | .error e => .error e
  | .ok c => .ok (run b c detected)

/-- Outcome of the Retry Wrapper: the number of invocations of the wrapped
operation, the events emitted, and either the first successful result or the
last error tagged with the attempt count (spec section 4.1). -/
structure RetryOut (E A : Type) where
  calls : Nat
  events : List PipelineEvent
  result : Except (E × Nat) A
deriving Repr

/-- Modelled from the spec: the recursion of the Retry Wrapper (the Python
`src/utils/async` `retry` decorator body is absent from the snapshot).  The
operation is modelled by the outcome of each numbered attempt; `rest` is the
number of attempts still permitted after the current one.  Each failed
attempt emits a WARNING event carrying its attempt number; after the final
failed attempt the last error is returned tagged with the attempt count. -/
def retryFrom (op : Nat → Except E A) : Nat → Nat → RetryOut E A
  | 0, attempt =>
    match op attempt with
    | .ok a => ⟨1, [], .ok a⟩
    | .error e => ⟨1, [.WARNING attempt], .error (e, attempt)⟩
  | r + 1, attempt =>
    match op attempt with
    | .ok a => ⟨1, [], .ok a⟩
    | .error _ =>
      let out := retryFrom op r (attempt + 1)
      ⟨out.calls + 1, .WARNING attempt :: out.events, out.result⟩

/-- Modelled from the spec: the Retry Wrapper with attempt limit `N ≥ 1`,
starting at attempt 1 (spec section 4.1). -/
def retry (op : Nat → Except E A) (N : Nat) : RetryOut E A :=
  retryFrom op (N - 1) 1

/-- Outcome of a run whose overall deadline is modelled explicitly:
the verdicts completed before expiry, the claims whose in-flight stage calls
were cancelled at expiry, the final summary event payload (completed claims,
cut-short claims; `none` when the deadline did not expire), whether the run
raised, and that the run returned at all. -/
structure DeadlineRunResult where
  verdicts : List Verdict
  cancelled : List Claim
  summary : Option (List Claim × List Claim)
  raised : Bool
  returned : Bool
deriving Repr

/-- Modelled from the spec: the overall-deadline behavior of spec section
4.3 (the Python timeout handling is absent from the snapshot).  `outcome c`
is `some v` when claim `c`'s sub-pipeline produced verdict `v` before
`timeout_seconds` expired and `none` when it was still in flight at expiry.
On expiry all in-flight calls are cancelled, a final summary event is
published, the completed verdicts are returned, and the run raises only when
`raise_exceptions` is set and no verdict completed. -/
def runWithDeadline (cfg : PipelineConfig) (claims : List Claim)
    (outcome : Claim → Option Verdict) : DeadlineRunResult :=
  let completed := claims.filter (fun c => (outcome c).isSome)
  let cut := claims.filter (fun c => (outcome c).isNone)
  let vs := claims.filterMap outcome
  if cut.isEmpty then ⟨vs, [], none, false, true⟩
  else ⟨vs, cut, some (completed, cut), cfg.raise_exceptions && vs.isEmpty, true⟩

/-- State of the claim-processing scheduler: claims waiting for a worker,
claims whose sub-pipeline is executing, and finished claims. -/
structure SchedState where
  waiting : List Claim
  active : List Claim
  done : List Claim
deriving DecidableEq, Repr

/-- Modelled from the spec: the semaphore-gated scheduling of claim
sub-pipelines (spec sections 4.3 and 5; the Python worker-pool code is
absent from the snapshot).  A sub-pipeline may start only while fewer than
`par` are executing; a finishing sub-pipeline releases its slot. -/
inductive SchedStep (par : Nat) : SchedState → SchedState → Prop
  | start (c : Claim) (w a d : List Claim) :
      c ∈ w → a.length < par →
      SchedStep par ⟨w, a, d⟩ ⟨w.erase c, c :: a, d⟩
  | finish (c : Claim) (w a d : List Claim) :
      c ∈ a →
      SchedStep par ⟨w, a, d⟩ ⟨w, a.erase c, c :: d⟩

/-- The states a run's scheduler can reach from its initial state, in which
every filtered claim is waiting and no sub-pipeline has started. -/
inductive SchedReachable (par : Nat) (claims : List Claim) : SchedState → Prop
  | init : SchedReachable par claims ⟨claims, [], []⟩
  | step (s s' : SchedState) :
      SchedReachable par claims s → SchedStep par s s' → SchedReachable par claims s'

/-- Modelled from the spec: the Event Bus with per-tag registration, the
interface declared by `register_event_handler` in the pipeline README's
event-handling example.  Handlers are kept in registration order. -/
structure EventBus (H : Type) where
  handlers : List (EventTag × H)
deriving Repr

/-- Modelled from the spec: `register_event_handler(event_type, handler)`
as used in the pipeline README — appends a handler registered for one event
tag. -/
def register_event_handler (bus : EventBus H) (t : EventTag) (h : H) : EventBus H :=
  ⟨bus.handlers ++ [(t, h)]⟩

/-- Modelled from the spec: synchronous delivery of one published event (spec
section 4.2 delivery loop, restricted to the per-tag registrations of the
README's interface).  Returns the handlers invoked, in invocation order. -/
def publish (bus : EventBus H) (e : PipelineEvent) : List H :=
  (bus.handlers.filter (fun p => p.1 = e.tag)).map Prod.snd

/-- Scenario claim with check-worthiness 0.9 (spec section 8). -/
def claimA : Claim := ⟨"A", none, none, 9/10⟩

/-- Scenario claim with check-worthiness 0.8 (spec section 8). -/
def claimB : Claim := ⟨"B", none, none, 8/10⟩

/-- Scenario claim with check-worthiness 0.3 (spec section 8). -/
def claimC : Claim := ⟨"C", none, none, 3/10⟩

/-- The scenario configuration of spec section 8: `min_checkworthiness`
0.5, `max_claims` 2, the other fields at their documented defaults. -/
def scenarioConfig : PipelineConfig := ⟨1/2, some 2, 5, 120, 2, 1, false⟩

/-- A claim with integer check-worthiness 1, for concrete instantiations. -/
def claimP : Claim := ⟨"P", none, none, 1⟩

/-- A second claim with integer check-worthiness 1. -/
def claimQ : Claim := ⟨"Q", none, none, 1⟩

/-- A third claim with integer check-worthiness 0. -/
def claimR : Claim := ⟨"R", none, none, 0⟩

/-- A permissive configuration with integer fields, accepting every claim. -/
def openConfig : PipelineConfig := ⟨0, none, 5, 120, 2, 1, false⟩

/-- The permissive configuration with `raise_exceptions` set. -/
def openConfigRaise : PipelineConfig := ⟨0, none, 5, 120, 2, 1, true⟩

/-- A stage behavior whose evidence gathering fails for the claim named
"Q" and succeeds with empty evidence otherwise. -/
def failQBehavior : StageBehavior :=
  ⟨fun c => if c.text = "Q" then .error "gather failed" else .ok [],
   fun c _ => .ok ⟨c.text, "true", 1, "ok", []⟩⟩

/-- An invalid configuration: `parallelism` is 0. -/
def badConfig : PipelineConfig := ⟨0, none, 5, 120, 2, 0, false⟩

/-- A configuration whose threshold 1 rejects the claim of worthiness 0. -/
def strictConfig : PipelineConfig := ⟨1, none, 5, 120, 2, 1, false⟩

/-- An operation that fails on its first attempt and then succeeds. -/
def retryDemoOp : Nat → Except String Nat :=
  fun i => if i = 1 then Except.error "first attempt fails" else Except.ok 0

/-- An operation that fails on every attempt. -/
def alwaysFailOp : Nat → Except String Nat :=
  fun _ => Except.error "stage down"

/-- A per-claim deadline outcome in which every sub-pipeline is still in
flight at expiry. -/
def stallOutcome : Claim → Option Verdict := fun _ => none

/-! ## Lemmas about per-claim processing and the run function -/

/-- A claim whose sub-pipeline failed publishes an ERROR event naming it. -/
theorem processClaim_error_of_none (b : StageBehavior) (c : Claim)
    (h : (processClaim b c).2 = none) :
    ∃ e, PipelineEvent.ERROR (some c) e ∈ (processClaim b c).1 := by
  cases hg : b.gather c with
  | error e => exact ⟨e, by simp [processClaim, hg]⟩
  | ok ev =>
    cases hw : b.write c ev with
    | error e => exact ⟨e, by simp [processClaim, hg, hw]⟩
    | ok v => simp [processClaim, hg, hw] at h

/-- A VERDICT_GENERATED event produced by a claim's sub-pipeline names that
claim and its successful verdict. -/
theorem processClaim_verdict_event (b : StageBehavior) (c c' : Claim) (v : Verdict)
    (h : PipelineEvent.VERDICT_GENERATED c' v ∈ (processClaim b c).1) :
    c' = c ∧ (processClaim b c).2 = some v := by
  cases hg : b.gather c with
  | error e => simp [processClaim, hg] at h
  | ok ev =>
    cases hw : b.write c ev with
    | error e => simp [processClaim, hg, hw] at h
    | ok w =>
      simp [processClaim, hg, hw] at h
      obtain ⟨h1, h2⟩ := h
      exact ⟨h1, by simp [processClaim, hg, hw, h2]⟩

/-- With the lenient failure policy, every claim of the list receives a
stage call. -/
theorem processAll_false_calls (b : StageBehavior) :
    ∀ l : List Claim, (processAll b false l).calls = l := by
  intro l
  induction l with
  | nil => rfl
  | cons c rest ih =>
    cases hp : (processClaim b c).2 with
    | some v => simp [processAll, hp, ih]
    | none => simp [processAll, hp, ih]

/-- With the lenient failure policy, processing never records a run-aborting
failure. -/
theorem processAll_false_failed (b : StageBehavior) :
    ∀ l : List Claim, (processAll b false l).failed = none := by
  intro l
  induction l with
  | nil => rfl
  | cons c rest ih =>
    cases hp : (processClaim b c).2 with
    | some v => simp [processAll, hp, ih]
    | none => simp [processAll, hp, ih]

/-- With the lenient failure policy, the verdicts are exactly the successful
sub-pipeline results, in claim order. -/
theorem processAll_false_verdicts (b : StageBehavior) :
    ∀ l : List Claim,
      (processAll b false l).verdicts = l.filterMap (fun c => (processClaim b c).2) := by
  intro l
  induction l with
  | nil => rfl
  | cons c rest ih =>
    cases hp : (processClaim b c).2 with
    | some v => simp [processAll, hp, ih, List.filterMap_cons, hp]
    | none => simp [processAll, hp, ih, List.filterMap_cons, hp]

/-- With the lenient failure policy, each claim's sub-pipeline events appear
in the aggregate event list. -/
theorem processAll_false_events_mem (b : StageBehavior) (c : Claim) (x : PipelineEvent) :
    ∀ l : List Claim, c ∈ l → x ∈ (processClaim b c).1 →
      x ∈ (processAll b false l).events := by
  intro l
  induction l with
  | nil => intro h; simp at h
  | cons a rest ih =>
    intro hc hx
    rcases List.mem_cons.mp hc with hca | hcr
    · subst hca
      cases hp : (processClaim b c).2 with
      | some v => simp [processAll, hp]; exact Or.inl hx
      | none => simp [processAll, hp]; exact Or.inl hx
    · cases hp : (processClaim b a).2 with
      | some v => simp [processAll, hp]; exact Or.inr (ih hcr hx)
      | none => simp [processAll, hp]; exact Or.inr (ih hcr hx)

/-- When every claim of the list succeeds, every claim receives a stage call
under either failure policy. -/
theorem processAll_allSome_calls (b : StageBehavior) (raiseExc : Bool) :
    ∀ l : List Claim, (∀ c ∈ l, ((processClaim b c).2).isSome = true) →
      (processAll b raiseExc l).calls = l := by
  intro l
  induction l with
  | nil => intro _; rfl
  | cons c rest ih =>
    intro h
    have hc := h c (List.mem_cons_self c rest)
    obtain ⟨v, hv⟩ := Option.isSome_iff_exists.mp hc
    have := ih (fun c' hc' => h c' (List.mem_cons_of_mem c hc'))
    simp [processAll, hv, this]

/-- Under the strict failure policy, processing a list whose first failing
claim is `c` runs the successful prefix, then `c`, and stops: the events are
the prefix events followed by `c`'s events, the verdicts are the prefix
verdicts, the failure records `c`, and only `pre ++ [c]` received stage
calls. -/
theorem processAll_raise_split (b : StageBehavior) (c : Claim) :
    ∀ (pre post : List Claim),
      (∀ c' ∈ pre, ((processClaim b c').2).isSome = true) →
      (processClaim b c).2 = none →
      processAll b true (pre ++ c :: post) =
        ⟨pre.flatMap (fun c' => (processClaim b c').1) ++ (processClaim b c).1,
         pre.filterMap (fun c' => (processClaim b c').2),
         some c, pre ++ [c]⟩ := by
  intro pre
  induction pre with
  | nil =>
    intro post _ hc
    simp [processAll, hc]
  | cons a pre' ih =>
    intro post hpre hc
    have ha := hpre a (List.mem_cons_self a pre')
    obtain ⟨v, hv⟩ := Option.isSome_iff_exists.mp ha
    have hrest := ih post (fun c' hc' => hpre c' (List.mem_cons_of_mem a hc')) hc
    simp only [List.cons_append, processAll, hv, hrest]
    simp [List.filterMap_cons, hv, hrest]

/-- The stage calls of a run on a nonempty filtered list are those of claim
processing, whichever way the run ends. -/
theorem run_calls_eq (b : StageBehavior) (cfg : PipelineConfig) (detected : List Claim)
    (hne : (filterClaims cfg detected).isEmpty = false) :
    (run b cfg detected).calls =
      (processAll b cfg.raise_exceptions (filterClaims cfg detected)).calls := by
  unfold run
  simp only [hne, Bool.false_eq_true, if_false]
  cases hf : (processAll b cfg.raise_exceptions (filterClaims cfg detected)).failed <;>
    simp [hf]

/-- A run over an empty filtered list completes directly with no verdicts,
no stage calls and only the STARTED and COMPLETED events. -/
theorem run_empty (b : StageBehavior) (cfg : PipelineConfig) (detected : List Claim)
    (h : filterClaims cfg detected = []) :
    run b cfg detected =
      ⟨[], [.STARTED, .COMPLETED], [.CREATED, .DETECTING, .COMPLETED], false, []⟩ := by
  unfold run
  simp [h]

/-- A run over a nonempty filtered list with no recorded failure aggregates
the processing outcome and completes. -/
theorem run_nonempty_ok (b : StageBehavior) (cfg : PipelineConfig) (detected : List Claim)
    (hne : (filterClaims cfg detected).isEmpty = false)
    (hf : (processAll b cfg.raise_exceptions (filterClaims cfg detected)).failed = none) :
    run b cfg detected =
      ⟨(processAll b cfg.raise_exceptions (filterClaims cfg detected)).verdicts,
       .STARTED :: (processAll b cfg.raise_exceptions (filterClaims cfg detected)).events
         ++ [.COMPLETED],
       [.CREATED, .DETECTING, .PROCESSING_CLAIMS, .AGGREGATING, .COMPLETED], false,
       (processAll b cfg.raise_exceptions (filterClaims cfg detected)).calls⟩ := by
  unfold run
  simp [hne, hf]

/-- A run over a nonempty filtered list whose processing records a failure
transitions to FAILED and raises. -/
theorem run_nonempty_failed (b : StageBehavior) (cfg : PipelineConfig) (detected : List Claim)
    (c : Claim) (hne : (filterClaims cfg detected).isEmpty = false)
    (hf : (processAll b cfg.raise_exceptions (filterClaims cfg detected)).failed = some c) :
    run b cfg detected =
      ⟨[], .STARTED :: (processAll b cfg.raise_exceptions (filterClaims cfg detected)).events,
       [.CREATED, .DETECTING, .PROCESSING_CLAIMS, .FAILED], true,
       (processAll b cfg.raise_exceptions (filterClaims cfg detected)).calls⟩ := by
  unfold run
  simp [hne, hf]

/-! ## Lemmas about the Retry Wrapper -/

/-- An attempt that succeeds ends the retry loop at once, with no WARNING. -/
theorem retryFrom_ok {E A : Type} (op : Nat → Except E A) (a : A) (rest attempt : Nat)
    (h : op attempt = Except.ok a) :
    retryFrom op rest attempt = ⟨1, [], Except.ok a⟩ := by
  cases rest <;> simp [retryFrom, h]

/-- Prepending the WARNING of the current attempt to the WARNINGs of the
following `n` attempts reindexes to `n + 1` WARNINGs from the current
attempt on. -/
theorem warning_range_shift (attempt n : Nat) :
    PipelineEvent.WARNING attempt ::
        (List.range n).map (fun i => PipelineEvent.WARNING (attempt + 1 + i)) =
      (List.range (n + 1)).map (fun i => PipelineEvent.WARNING (attempt + i)) := by
  rw [List.range_succ_eq_map, List.map_cons, List.map_map, Nat.add_zero]
  congr 1
  apply List.map_congr_left
  intro i _
  simp only [Function.comp]
  congr 1
  omega

/-- If the first `j` attempts starting at `attempt` fail and attempt
`attempt + j` succeeds within the permitted budget, the wrapper returns the
success after `j + 1` invocations with one WARNING per failed attempt. -/
theorem retryFrom_success_after {E A : Type} (op : Nat → Except E A) (a : A) :
    ∀ (j rest attempt : Nat), j ≤ rest →
      (∀ i, i < j → ∃ e, op (attempt + i) = Except.error e) →
      op (attempt + j) = Except.ok a →
      retryFrom op rest attempt =
        ⟨j + 1, (List.range j).map (fun i => PipelineEvent.WARNING (attempt + i)),
          Except.ok a⟩ := by
  intro j
  induction j with
  | zero =>
    intro rest attempt _ _ hok
    rw [Nat.add_zero] at hok
    simp [retryFrom_ok op a rest attempt hok]
  | succ j ih =>
    intro rest attempt hle hfail hok
    obtain ⟨e0, he0⟩ := hfail 0 (Nat.succ_pos j)
    rw [Nat.add_zero] at he0
    cases rest with
    | zero => exact absurd hle (by omega)
    | succ r =>
      have hrec := ih r (attempt + 1) (by omega)
        (fun i hi => by
          obtain ⟨e, he⟩ := hfail (i + 1) (by omega)
          exact ⟨e, by rw [show attempt + 1 + i = attempt + (i + 1) by omega]; exact he⟩)
        (by rw [show attempt + 1 + j = attempt + (j + 1) by omega]; exact hok)
      simp only [retryFrom, he0, hrec]
      congr 1
      exact warning_range_shift attempt j

/-- If every attempt fails, the wrapper makes all permitted invocations,
emits one WARNING per attempt, and returns the last error tagged with the
final attempt number. -/
theorem retryFrom_all_fail {E A : Type} (op : Nat → Except E A)
    (hfail : ∀ i, ∃ e, op i = Except.error e) :
    ∀ (rest attempt : Nat),
      ∃ e, op (attempt + rest) = Except.error e ∧
        retryFrom op rest attempt =
          ⟨rest + 1,
            (List.range (rest + 1)).map (fun i => PipelineEvent.WARNING (attempt + i)),
            Except.error (e, attempt + rest)⟩ := by
  intro rest
  induction rest with
  | zero =>
    intro attempt
    obtain ⟨e, he⟩ := hfail attempt
    refine ⟨e, by rw [Nat.add_zero]; exact he, ?_⟩
    simp [retryFrom, show op attempt = Except.error e by exact he, List.range_succ]
  | succ r ih =>
    intro attempt
    obtain ⟨e0, he0⟩ := hfail attempt
    obtain ⟨e, he, hrec⟩ := ih (attempt + 1)
    refine ⟨e, by rw [show attempt + (r + 1) = attempt + 1 + r by omega]; exact he, ?_⟩
    simp only [retryFrom, he0, hrec]
    congr 1
    · exact warning_range_shift attempt (r + 1)
    · rw [show attempt + 1 + r = attempt + (r + 1) by omega]

/-! ## Lemmas about claim filtering -/

/-- A claim surviving the filter passes the threshold and came from the
detector output. -/
theorem mem_filterClaims (cfg : PipelineConfig) (l : List Claim) (c : Claim)
    (h : c ∈ filterClaims cfg l) :
    cfg.min_checkworthiness ≤ c.check_worthiness ∧ c ∈ l := by
  simp only [filterClaims] at h
  cases hm : cfg.max_claims with
  | some m =>
    rw [hm] at h
    have h2 := List.take_subset m _ h
    exact ⟨by simpa using List.of_mem_filter h2, List.mem_of_mem_filter h2⟩
  | none =>
    rw [hm] at h
    exact ⟨by simpa using List.of_mem_filter h, List.mem_of_mem_filter h⟩

/-- Filtering and truncation preserve detector order: the surviving claims
form a sublist of the detector output. -/
theorem filterClaims_sublist (cfg : PipelineConfig) (l : List Claim) :
    List.Sublist (filterClaims cfg l) l := by
  simp only [filterClaims]
  cases cfg.max_claims with
  | some m => exact (List.take_sublist m _).trans (List.filter_sublist l)
  | none => exact List.filter_sublist l

/-- When a cap is set, at most `max_claims` claims survive. -/
theorem filterClaims_length_le (cfg : PipelineConfig) (l : List Claim) (m : Nat)
    (h : cfg.max_claims = some m) : (filterClaims cfg l).length ≤ m := by
  simp only [filterClaims, h]
  exact List.length_take_le m _

/-! ## The claims -/

/-- C5: `PipelineConfig` construction raises a validation error if and only
if `min_checkworthiness` lies outside `[0,1]`, `parallelism < 1`,
`evidence_per_claim < 0`, `timeout_seconds ≤ 0`, or `retry_attempts < 1`;
such an error is raised before any stage call and the run's state machine is
never entered: the pipeline entry point returns the validation error with no
run outcome at all. -/
theorem C5_config_validation (cfg : PipelineConfig) :
    ((∃ e, cfg.validate = Except.error e) ↔
      (cfg.min_checkworthiness < 0 ∨ 1 < cfg.min_checkworthiness ∨
        cfg.parallelism < 1 ∨ cfg.evidence_per_claim < 0 ∨
        cfg.timeout_seconds ≤ 0 ∨ cfg.retry_attempts < 1)) ∧
    (∀ (b : StageBehavior) (detected : List Claim) (e : String),
      cfg.validate = Except.error e →
      runPipeline b cfg detected = Except.error e) := by
  constructor
  · unfold PipelineConfig.validate
    split_ifs with h1 h2 h3 h4 h5 h6 <;> simp_all
  · intro b detected e h
    simp [runPipeline, h]

/-- C5 witness: the configuration with `parallelism = 0` is rejected with no
run outcome. -/
theorem C5_witness :
    runPipeline failQBehavior badConfig [] = Except.error "parallelism below 1" :=
  (C5_config_validation badConfig).2 failQBehavior [] "parallelism below 1" rfl

/-- C10: a pipeline constructed without an explicit configuration uses the
documented defaults (`min_checkworthiness` 0.5, `max_claims` none,
`evidence_per_claim` 5, `timeout_seconds` 120.0, `retry_attempts` 2,
`raise_exceptions` false), and these defaults pass validation, so default
construction succeeds. -/
theorem C10_default_configuration :
    defaultPipelineConfig.min_checkworthiness = 1 / 2 ∧
    defaultPipelineConfig.max_claims = none ∧
    defaultPipelineConfig.evidence_per_claim = 5 ∧
    defaultPipelineConfig.timeout_seconds = 120 ∧
    defaultPipelineConfig.retry_attempts = 2 ∧
    defaultPipelineConfig.raise_exceptions = false ∧
    defaultPipelineConfig.validate = Except.ok defaultPipelineConfig := by
  refine ⟨rfl, rfl, rfl, rfl, rfl, rfl, ?_⟩
  unfold PipelineConfig.validate defaultPipelineConfig
  norm_num

/-- C7: a run whose filtered claim list is empty completes normally with an
empty verdict list, transitions directly to COMPLETED, does not raise, and
publishes no ERROR event. -/
theorem C7_empty_claim_list (b : StageBehavior) (cfg : PipelineConfig) (detected : List Claim)
    (h : filterClaims cfg detected = []) :
    (run b cfg detected).verdicts = [] ∧
    (run b cfg detected).trajectory =
      [RunState.CREATED, RunState.DETECTING, RunState.COMPLETED] ∧
    (run b cfg detected).raised = false ∧
    ∀ (c : Option Claim) (d : String),
      PipelineEvent.ERROR c d ∉ (run b cfg detected).events := by
  rw [run_empty b cfg detected h]
  refine ⟨rfl, rfl, rfl, ?_⟩
  intro c d hmem
  simp at hmem

/-- C7 witness: the threshold-1 configuration filters out the worthiness-0
claim and the run completes with no verdicts and no raise. -/
theorem C7_witness :
    (run failQBehavior strictConfig [claimR]).verdicts = [] ∧
    (run failQBehavior strictConfig [claimR]).raised = false :=
  ⟨(C7_empty_claim_list failQBehavior strictConfig [claimR] (by decide)).1,
   (C7_empty_claim_list failQBehavior strictConfig [claimR] (by decide)).2.2.1⟩

/-- C1: provided the run is not cut short by the strict failure policy, the
claims processed (receiving stage calls) are exactly those whose
check-worthiness passes the threshold, truncated to the first `max_claims`
when set, in detector-returned order; in the documented scenario with
worthiness 0.9, 0.8, 0.3 under threshold 0.5 and cap 2, exactly the first
two claims are processed, in that order, and the 0.3 claim receives no
stage call. -/
theorem C1_processed_claims (b : StageBehavior) (cfg : PipelineConfig) (detected : List Claim)
    (h : cfg.raise_exceptions = false ∨
      ∀ c ∈ filterClaims cfg detected, ((processClaim b c).2).isSome = true) :
    (run b cfg detected).calls = filterClaims cfg detected ∧
    (∀ c ∈ (run b cfg detected).calls, cfg.min_checkworthiness ≤ c.check_worthiness) ∧
    List.Sublist (run b cfg detected).calls detected ∧
    (∀ m, cfg.max_claims = some m → (run b cfg detected).calls.length ≤ m) ∧
    (run b scenarioConfig [claimA, claimB, claimC]).calls = [claimA, claimB] ∧
    claimC ∉ (run b scenarioConfig [claimA, claimB, claimC]).calls := by
  have hcalls : ∀ (cfg' : PipelineConfig) (det' : List Claim),
      (cfg'.raise_exceptions = false ∨
        ∀ c ∈ filterClaims cfg' det', ((processClaim b c).2).isSome = true) →
      (run b cfg' det').calls = filterClaims cfg' det' := by
    intro cfg' det' h'
    by_cases hl : filterClaims cfg' det' = []
    · rw [run_empty b cfg' det' hl, hl]
    · have hne : (filterClaims cfg' det').isEmpty = false := by
        simp [List.isEmpty_eq_false, hl]
      rw [run_calls_eq b cfg' det' hne]
      rcases h' with hf | hs
      · rw [hf]
        exact processAll_false_calls b _
      · exact processAll_allSome_calls b _ _ hs
  have h1 := hcalls cfg detected h
  have hsc : filterClaims scenarioConfig [claimA, claimB, claimC] = [claimA, claimB] := by
    simp only [filterClaims, scenarioConfig, claimA, claimB, claimC, List.filter, List.take]
    norm_num
  have h2 := hcalls scenarioConfig [claimA, claimB, claimC] (Or.inl rfl)
  rw [h2, hsc] at *
  refine ⟨h1, ?_, ?_, ?_, rfl, ?_⟩
  · intro c hc
    rw [h1] at hc
    exact (mem_filterClaims cfg detected c hc).1
  · rw [h1]
    exact filterClaims_sublist cfg detected
  · intro m hm
    rw [h1]
    exact filterClaims_length_le cfg detected m hm
  · simp [claimA, claimB, claimC]

/-- C1 witness: with the lenient policy, the permissive configuration and a
single passing claim, the processed claims are exactly the filtered list. -/
theorem C1_witness :
    (run failQBehavior openConfig [claimP]).calls = filterClaims openConfig [claimP] :=
  (C1_processed_claims failQBehavior openConfig [claimP] (Or.inl rfl)).1

/-- C2: with `raise_exceptions = false`, a run never raises because a
claim's sub-step exhausted its retries: the run does not raise, the verdict
list is exactly the successful sub-pipeline results (so each failed claim is
absent and its length is at most the number of filtered claims), every
failed claim gets an ERROR event naming it, and the run still ends in
COMPLETED. -/
theorem C2_lenient_failure_policy (b : StageBehavior) (cfg : PipelineConfig)
    (detected : List Claim) (h : cfg.raise_exceptions = false) :
    (run b cfg detected).raised = false ∧
    (run b cfg detected).verdicts =
      (filterClaims cfg detected).filterMap (fun c => (processClaim b c).2) ∧
    (run b cfg detected).verdicts.length ≤ (filterClaims cfg detected).length ∧
    (∀ c ∈ filterClaims cfg detected, (processClaim b c).2 = none →
      ∃ e, PipelineEvent.ERROR (some c) e ∈ (run b cfg detected).events) ∧
    (run b cfg detected).trajectory.getLast? = some RunState.COMPLETED := by
  by_cases hl : filterClaims cfg detected = []
  · rw [run_empty b cfg detected hl, hl]
    refine ⟨rfl, rfl, by simp, ?_, rfl⟩
    intro c hc
    simp at hc
  · have hne : (filterClaims cfg detected).isEmpty = false := by
      simp [List.isEmpty_eq_false, hl]
    have hfailed :
        (processAll b cfg.raise_exceptions (filterClaims cfg detected)).failed = none := by
      rw [h]
      exact processAll_false_failed b _
    rw [run_nonempty_ok b cfg detected hne hfailed]
    dsimp only
    have hv : (processAll b cfg.raise_exceptions (filterClaims cfg detected)).verdicts =
        (filterClaims cfg detected).filterMap (fun c => (processClaim b c).2) := by
      rw [h]
      exact processAll_false_verdicts b _
    refine ⟨rfl, hv, ?_, ?_, ?_⟩
    · rw [hv]
      exact List.length_filterMap_le _ _
    · intro c hc hnone
      obtain ⟨e, he⟩ := processClaim_error_of_none b c hnone
      refine ⟨e, ?_⟩
      have hmem : PipelineEvent.ERROR (some c) e ∈
          (processAll b cfg.raise_exceptions (filterClaims cfg detected)).events := by
        rw [h]
        exact processAll_false_events_mem b c _ (filterClaims cfg detected) hc he
      exact List.mem_cons_of_mem _ (List.mem_append_left _ hmem)
    · rfl

/-- C2 witness: with the lenient policy and a claim whose evidence gathering
fails, the run does not raise. -/
theorem C2_witness : (run failQBehavior openConfig [claimQ]).raised = false :=
  (C2_lenient_failure_policy failQBehavior openConfig [claimQ] rfl).1

/-- C6: with `raise_exceptions = true`, the first claim whose sub-step
exhausts its retries makes the run raise and transition to FAILED, an ERROR
event names the failing claim, no VERDICT_GENERATED event is published for
it, and the claims after the failure point receive no stage call. -/
theorem C6_strict_failure_policy (b : StageBehavior) (cfg : PipelineConfig)
    (detected : List Claim) (pre post : List Claim) (c : Claim)
    (hraise : cfg.raise_exceptions = true)
    (hsplit : filterClaims cfg detected = pre ++ c :: post)
    (hpre : ∀ c' ∈ pre, ((processClaim b c').2).isSome = true)
    (hc : (processClaim b c).2 = none) :
    (run b cfg detected).raised = true ∧
    (run b cfg detected).trajectory =
      [RunState.CREATED, RunState.DETECTING, RunState.PROCESSING_CLAIMS, RunState.FAILED] ∧
    (∃ e, PipelineEvent.ERROR (some c) e ∈ (run b cfg detected).events) ∧
    (∀ v : Verdict, PipelineEvent.VERDICT_GENERATED c v ∉ (run b cfg detected).events) ∧
    (run b cfg detected).calls = pre ++ [c] := by
  have hne : (filterClaims cfg detected).isEmpty = false := by
    rw [hsplit]
    cases pre <;> rfl
  have hproc : processAll b cfg.raise_exceptions (filterClaims cfg detected) =
      ⟨pre.flatMap (fun c' => (processClaim b c').1) ++ (processClaim b c).1,
       pre.filterMap (fun c' => (processClaim b c').2), some c, pre ++ [c]⟩ := by
    rw [hraise, hsplit]
    exact processAll_raise_split b c pre post hpre hc
  have hfailed :
      (processAll b cfg.raise_exceptions (filterClaims cfg detected)).failed = some c := by
    rw [hproc]
  rw [run_nonempty_failed b cfg detected c hne hfailed]
  dsimp only
  refine ⟨rfl, rfl, ?_, ?_, ?_⟩
  · obtain ⟨e, he⟩ := processClaim_error_of_none b c hc
    refine ⟨e, ?_⟩
    rw [hproc]
    exact List.mem_cons_of_mem _ (List.mem_append_right _ he)
  · intro v hv
    rw [hproc] at hv
    dsimp only at hv
    rcases List.mem_cons.mp hv with h1 | h2
    · simp at h1
    rcases List.mem_append.mp h2 with h3 | h4
    · obtain ⟨c', hc', hmem⟩ := List.mem_flatMap.mp h3
      obtain ⟨heq, hsome⟩ := processClaim_verdict_event b c' c v hmem
      rw [heq] at hc
      rw [hsome] at hc
      simp at hc
    · obtain ⟨heq, hsome⟩ := processClaim_verdict_event b c c v h4
      rw [hsome] at hc
      simp at hc
  · rw [hproc]

/-- C6 witness: with the strict policy, the claim "Q" fails evidence
gathering after "P" succeeded; the run raises and only "P" and "Q" received
stage calls, not "R". -/
theorem C6_witness :
    (run failQBehavior openConfigRaise [claimP, claimQ, claimR]).raised = true ∧
    (run failQBehavior openConfigRaise [claimP, claimQ, claimR]).calls =
      [claimP] ++ [claimQ] :=
  ⟨(C6_strict_failure_policy failQBehavior openConfigRaise [claimP, claimQ, claimR]
      [claimP] [claimR] claimQ rfl (by decide) (by decide) (by decide)).1,
   (C6_strict_failure_policy failQBehavior openConfigRaise [claimP, claimQ, claimR]
      [claimP] [claimR] claimQ rfl (by decide) (by decide) (by decide)).2.2.2.2⟩

/-- C3: for an operation wrapped with attempt limit `N ≥ 1`: if it fails
exactly `k < N` times and then succeeds, the wrapper returns the success
after `k + 1` invocations and emits exactly `k` WARNING events, one per
failed attempt; if it fails on every attempt, the wrapper invokes it exactly
`N` times and returns the last error tagged with the attempt count `N`. -/
theorem C3_retry_contract {E A : Type} (op : Nat → Except E A) (N k : Nat) (a : A)
    (hN : 1 ≤ N) :
    (k < N → (∀ i, 1 ≤ i → i ≤ k → ∃ e, op i = Except.error e) →
      op (k + 1) = Except.ok a →
      retry op N =
        ⟨k + 1, (List.range k).map (fun i => PipelineEvent.WARNING (1 + i)),
          Except.ok a⟩) ∧
    ((∀ i, ∃ e, op i = Except.error e) →
      (retry op N).calls = N ∧
      ∃ e, op N = Except.error e ∧ (retry op N).result = Except.error (e, N)) := by
  constructor
  · intro hk hfail hok
    unfold retry
    exact retryFrom_success_after op a k (N - 1) 1 (by omega)
      (fun i hi => by
        obtain ⟨e, he⟩ := hfail (1 + i) (by omega) (by omega)
        exact ⟨e, he⟩)
      (by rw [show 1 + k = k + 1 by omega]; exact hok)
  · intro hfail
    obtain ⟨e, he, heq⟩ := retryFrom_all_fail op hfail (N - 1) 1
    have h1 : 1 + (N - 1) = N := by omega
    rw [h1] at he heq
    unfold retry
    rw [heq]
    exact ⟨by show N - 1 + 1 = N; omega, e, he, rfl⟩

/-- C3 witness: an operation failing only on attempt 1, wrapped with limit
3, returns the success after 2 invocations with one WARNING for attempt 1. -/
theorem C3_witness :
    retry retryDemoOp 3 =
      ⟨1 + 1, (List.range 1).map (fun i => PipelineEvent.WARNING (1 + i)), Except.ok 0⟩ :=
  (C3_retry_contract retryDemoOp 3 1 0 (by decide)).1 (by decide)
    (fun i h1 h2 => ⟨"first attempt fails", by
      have h3 : i = 1 := Nat.le_antisymm h2 h1
      rw [h3]
      rfl⟩)
    rfl

/-- C4: when the run's deadline expires (some claim's sub-pipeline is still
in flight at `timeout_seconds`), the run returns rather than hangs: every
in-flight sub-pipeline is cancelled, a final summary event reports completed
versus cut-short claims, exactly the verdicts completed before expiry are
returned, and the run raises only when `raise_exceptions` is set and zero
verdicts completed. -/
theorem C4_deadline_expiry (cfg : PipelineConfig) (claims : List Claim)
    (outcome : Claim → Option Verdict) (h : ∃ c ∈ claims, outcome c = none) :
    (runWithDeadline cfg claims outcome).returned = true ∧
    (runWithDeadline cfg claims outcome).cancelled =
      claims.filter (fun c => (outcome c).isNone) ∧
    (runWithDeadline cfg claims outcome).summary =
      some (claims.filter (fun c => (outcome c).isSome),
        claims.filter (fun c => (outcome c).isNone)) ∧
    (runWithDeadline cfg claims outcome).verdicts = claims.filterMap outcome ∧
    ((runWithDeadline cfg claims outcome).raised = true ↔
      (cfg.raise_exceptions = true ∧ claims.filterMap outcome = [])) := by
  obtain ⟨c, hcmem, hcnone⟩ := h
  have hmem : c ∈ claims.filter (fun c => (outcome c).isNone) :=
    List.mem_filter.mpr ⟨hcmem, by simp [hcnone]⟩
  have hcut : (claims.filter (fun c => (outcome c).isNone)).isEmpty = false := by
    simp [List.isEmpty_eq_false, List.ne_nil_of_mem hmem]
  simp only [runWithDeadline, hcut, Bool.false_eq_true, if_false]
  refine ⟨trivial, trivial, trivial, trivial, ?_⟩
  simp [Bool.and_eq_true, List.isEmpty_iff]

/-- C4 witness: with every sub-pipeline stalled past the deadline, the run
still returns. -/
theorem C4_witness : (runWithDeadline openConfig [claimP] stallOutcome).returned = true :=
  (C4_deadline_expiry openConfig [claimP] stallOutcome ⟨claimP, by decide, rfl⟩).1

/-- C8: at every reachable point of a run's claim scheduling, the number of
concurrently executing claim sub-pipelines never exceeds the configured
parallelism. -/
theorem C8_concurrency_bound (par : Nat) (claims : List Claim) (s : SchedState)
    (h : SchedReachable par claims s) : s.active.length ≤ par := by
  induction h with
  | init => simp
  | step s' s'' hr hstep ih =>
    cases hstep with
    | start c w a d hc hlen => simpa using hlen
    | finish c w a d hc =>
      exact le_trans (List.Sublist.length_le (List.erase_sublist c a)) ih

/-- C8 witness: after the single claim starts under parallelism 1, the
active count is within the bound. -/
theorem C8_witness :
    (SchedState.mk (List.erase [claimP] claimP) [claimP] []).active.length ≤ 1 :=
  C8_concurrency_bound 1 [claimP] _
    (SchedReachable.step _ _ SchedReachable.init
      (SchedStep.start claimP [claimP] [] [] (by decide) (by decide)))

/-- C9 counterexample: the bus interface registers handlers per event tag,
so a handler registered for ERROR events is a current subscriber yet is not
invoked when a STARTED event is published — the claim that every subscribed
handler is invoked for every published event regardless of tag fails. -/
theorem C9_counterexample :
    (register_event_handler (EventBus.mk ([] : List (EventTag × Nat)))
        EventTag.ERROR 0).handlers = [(EventTag.ERROR, 0)] ∧
    (0 : Nat) ∉
      publish (register_event_handler (EventBus.mk ([] : List (EventTag × Nat)))
        EventTag.ERROR 0) PipelineEvent.STARTED := by
  exact ⟨rfl, by decide⟩

/-- C9 (amended): `register_event_handler(event_type, handler)` registers a
callback invoked synchronously, in registration order, for every
subsequently published event whose tag matches `event_type`: publishing a
matching event reaches the newly registered handler after all earlier
matching registrations, a non-matching event does not reach it, and every
registered handler whose tag matches the published event is invoked. -/
theorem C9_per_tag_delivery {H : Type} (bus : EventBus H) (t : EventTag) (h : H)
    (e : PipelineEvent) :
    (t = e.tag →
      publish (register_event_handler bus t h) e = publish bus e ++ [h]) ∧
    (t ≠ e.tag →
      publish (register_event_handler bus t h) e = publish bus e) ∧
    ((t, h) ∈ bus.handlers → t = e.tag → h ∈ publish bus e) := by
  refine ⟨?_, ?_, ?_⟩
  · intro ht
    simp [publish, register_event_handler, List.filter_append, ht]
  · intro ht
    simp [publish, register_event_handler, List.filter_append, ht]
  · intro hmem ht
    have : (t, h) ∈ bus.handlers.filter (fun p => p.1 = e.tag) :=
      List.mem_filter.mpr ⟨hmem, by simp [ht]⟩
    exact List.mem_map_of_mem Prod.snd this

/-- C9 witness: registering a handler for STARTED events and publishing a
STARTED event delivers to it after the earlier subscribers. -/
theorem C9_witness :
    publish (register_event_handler (EventBus.mk ([] : List (EventTag × Nat)))
        EventTag.STARTED 0) PipelineEvent.STARTED =
      publish (EventBus.mk ([] : List (EventTag × Nat))) PipelineEvent.STARTED ++ [0] :=
  (C9_per_tag_delivery (EventBus.mk ([] : List (EventTag × Nat)))
    EventTag.STARTED 0 PipelineEvent.STARTED).1 rfl
